import Mathlib

/-!
Shallow embedding of the video-management-server core (`src/recorder.py` and
the registry client in `src/main.py`).

The embedding translates the Python methods of `StreamRecorder` into pure
Lean functions.  External subprocess invocations (`gst-discoverer-1.0`,
`gst-launch-1.0`, `ffmpeg`) are parameterised by oracles describing the
outcome of each invocation; each method returns its successor state together
with a trace of observable events (one event per `print` call or external
invocation in the source).
-/

namespace VMS

/-! ### Python string primitives

`pyLower`, `pyContains`, `pyReplace`, `startsWithStr`, `endsWithStr`,
`strLe` and `pySorted` model the CPython operations `str.lower`,
`in` (substring test), `str.replace`, `str.startswith`, `str.endswith`,
string comparison `<=` (lexicographic by code point) and `sorted`.
-/

/-- Model of Python `str.lower()` (character-wise lowercasing). -/
def pyLower (s : String) : String := ⟨s.data.map Char.toLower⟩

/-- Substring occurrence test on character lists. -/
def listContainsSub (needle : List Char) : List Char → Bool
  | [] => needle.isEmpty
  | c :: t => needle.isPrefixOf (c :: t) || listContainsSub needle t

/-- Model of Python `needle in hay` for strings. -/
def pyContains (needle hay : String) : Bool := listContainsSub needle.data hay.data

/-- Fuelled kernel of `str.replace`: replaces each non-overlapping occurrence
of `old`, scanning left to right.  One unit of fuel is consumed per step, and
every step consumes at least one character, so fuel `s.length` suffices. -/
def replaceAllFuel (old new : List Char) : Nat → List Char → List Char
  | 0, s => s
  | _, [] => []
  | f + 1, c :: rest =>
    if !old.isEmpty && old.isPrefixOf (c :: rest) then
      new ++ replaceAllFuel old new f ((c :: rest).drop old.length)
    else
      c :: replaceAllFuel old new f rest

/-- Model of Python `s.replace(old, new)` (all occurrences). -/
def pyReplace (s old new : String) : String :=
  ⟨replaceAllFuel old.data new.data s.data.length s.data⟩

/-- Model of Python `s.startswith(p)`. -/
def startsWithStr (p s : String) : Bool := p.data.isPrefixOf s.data

/-- Model of Python `s.endswith(p)`. -/
def endsWithStr (p s : String) : Bool := p.data.reverse.isPrefixOf s.data.reverse

/-- Strict lexicographic comparison of character lists by code point,
the order CPython uses to compare strings. -/
def lexLt : List Char → List Char → Bool
  | [], [] => false
  | [], _ :: _ => true
  | _ :: _, [] => false
  | a :: as, b :: bs => if a = b then lexLt as bs else decide (a < b)

/-- Model of Python string `a <= b`. -/
def strLe (a b : String) : Bool := !(lexLt b.data a.data)

/-- Insert a string into a (sorted) list, keeping order. -/
def insertSorted (a : String) : List String → List String
  | [] => [a]
  | b :: l => if strLe a b then a :: b :: l else b :: insertSorted a l

/-- Model of Python `sorted` on a list of strings (insertion sort; for the
total order on strings every comparison sort produces this same output). -/
def pySorted : List String → List String
  | [] => []
  | a :: l => insertSorted a (pySorted l)

/-- Model of `os.path.join(dir, f)` for a directory path without a trailing
separator, as used throughout `recorder.py`. -/
def pathJoin (dir f : String) : String := dir ++ "/" ++ f

/-- The ASCII single-quote character used by the manifest format. -/
def quoteChar : Char := Char.ofNat 39

/-! ### `StreamRecorder._build_auth_url` -/

/-- Python truthiness of an optional string (`None` and `""` are falsy). -/
def truthy : Option String → Bool
  | none => false
  | some s => !s.isEmpty

/-- `StreamRecorder._build_auth_url`: if both credentials are truthy, every
occurrence of `rtsp://` in the URL is replaced by
`rtsp://<username>:<password>@`; otherwise the URL is returned unchanged. -/
def buildAuthUrl (url : String) (username password : Option String) : String :=
  if truthy username && truthy password then
    pyReplace url "rtsp://" ("rtsp://" ++ username.getD "" ++ ":" ++ password.getD "" ++ "@")
  else url

/-! ### Observable events

One constructor per `print` call or external-tool invocation in
`recorder.py`.  `stop()` and the duplicate branch of `start()` print
nothing in the source, so no warning constructors exist for them. -/

inductive Ev where
  /-- the per-attempt "Checking RTSP stream availability" line -/
  | probeCheck (attempt total : Nat)
  /-- one invocation of `gst-discoverer-1.0` (the `subprocess.run` call) -/
  | discovererRun
  /-- the "RTSP stream is available" line -/
  | probeAvail
  /-- the "RTSP stream might be empty" line -/
  | probeEmptyWarn
  /-- the "GStreamer discovery timed out" line -/
  | probeTimeoutWarn
  /-- the "Error checking RTSP stream" line -/
  | probeErrWarn
  /-- `time.sleep(retry_interval)` at the end of a failed attempt -/
  | probeSleep (secs : Nat)
  /-- the "RTSP stream did not become available" line -/
  | probeAbort
  /-- the "Waiting for RTSP stream" line printed by `start()` -/
  | waitingLog
  /-- the `gst-launch-1.0` pipeline `Popen` -/
  | captureLaunch
  /-- `process.wait()` returning the capture tool's exit status -/
  | captureExited (code : Nat)
  /-- the "Stopping recording" line printed by `stop()` -/
  | stoppingLog
  /-- the "Merging recorded segments" line -/
  | mergeLog
  /-- the `ffmpeg` concat invocation; its diagnostics go to the inherited
      console stream, carried here as the payload -/
  | ffmpegRun (diag : String)
  /-- the "Merged recording saved" line -/
  | mergeSaved (path : String)
  /-- the "Merging error" line printed from the `CalledProcessError` handler -/
  | mergeFailed (code : Nat)
deriving DecidableEq

/-! ### `StreamRecorder._is_rtsp_available` -/

/-- Outcome of one `subprocess.run(['gst-discoverer-1.0', url], timeout=5)`
invocation: normal completion with an exit code and captured output,
`TimeoutExpired`, or any other raised exception. -/
inductive ProbeAttempt where
  | completed (exitCode : Nat) (stdout stderr : String)
  | timedOut
  | raised (msg : String)
deriving DecidableEq

/-- Success classification of one attempt: exit code zero and the decoded
stdout, lowercased, contains `"video"`. -/
def attemptSucceeds : ProbeAttempt → Bool
  | .completed code out _ => code == 0 && pyContains "video" (pyLower out)
  | _ => false

/-- The diagnostic line printed on a failed attempt. -/
def attemptFailEv : ProbeAttempt → Ev
  | .completed _ _ _ => .probeEmptyWarn
  | .timedOut => .probeTimeoutWarn
  | .raised _ => .probeErrWarn

/-- The retry loop of `_is_rtsp_available`: `attempt` is the 1-based counter
of the Python `range(1, max_retries + 1)` loop, `remaining` the number of
iterations left.  A successful attempt returns `true` immediately without
sleeping; every failed attempt (non-zero exit, missing video indicator,
timeout, or exception — the `except` clauses swallow them all) sleeps
`retryInterval` seconds and continues. -/
def probeLoop (oracle : Nat → ProbeAttempt) (retryInterval total : Nat) :
    Nat → Nat → Bool × List Ev
  | _, 0 => (false, [.probeAbort])
  | attempt, r + 1 =>
    let a := oracle attempt
    if attemptSucceeds a then
      (true, [.probeCheck attempt total, .discovererRun, .probeAvail])
    else
      let rest := probeLoop oracle retryInterval total (attempt + 1) r
      (rest.1, .probeCheck attempt total :: .discovererRun :: attemptFailEv a ::
        .probeSleep retryInterval :: rest.2)

/-- `StreamRecorder._is_rtsp_available`.  The oracle gives the outcome of the
`gst-discoverer-1.0` invocation of each (1-based) attempt. -/
def isRtspAvailable (oracle : Nat → ProbeAttempt) (retryInterval maxRetries : Nat) :
    Bool × List Ev :=
  probeLoop oracle retryInterval maxRetries 1 maxRetries

/-! ### `StreamRecorder.merge_segments` -/

/-- The segment-file test of the merge loops:
`file.startswith("segment_") and file.endswith(".mp4")`. -/
def matchesSegment (f : String) : Bool :=
  startsWithStr "segment_" f && endsWithStr ".mp4" f

/-- A directory listing is a list of file names.  `addFile` models creating a
file: a no-op when the name is already present. -/
def addFile (f : String) (fs : List String) : List String :=
  if fs.contains f then fs else f :: fs

/-- `file 'path'` manifest line. -/
def manifestLine (p : String) : String :=
  "file " ++ String.singleton quoteChar ++ p ++ String.singleton quoteChar

/-- Result of one `ffmpeg` concat invocation: exit status plus the diagnostic
text that streams to the inherited console (it is not captured by the code). -/
structure FfmpegRun where
  exitCode : Nat
  diag : String
deriving DecidableEq

/-- Outcome reported by `merge_segments`: the success print with the merged
path, or the `CalledProcessError` handler's print.  The source has no
separate empty-input outcome. -/
inductive MergeOutcome where
  | saved (path : String)
  | toolFailed (exitCode : Nat)
deriving DecidableEq

/-- Full observable behaviour of one `merge_segments` call. -/
structure MergeTrace where
  /-- segment file names written to `file_list.txt`, in written order -/
  listed : List String
  /-- the manifest lines, one per listed segment -/
  manifest : List String
  /-- whether `ffmpeg` was invoked -/
  invoked : Bool
  /-- file names removed by the deletion loop, in deletion order -/
  deleted : List String
  /-- directory listing after the call -/
  fsAfter : List String
  outcome : MergeOutcome
  events : List Ev
deriving DecidableEq

/-- `StreamRecorder.merge_segments` over a directory listing `fs`.
Steps, in source order: `open(file_list_path, "w")` creates
`file_list.txt`; the sorted listing is filtered by `matchesSegment` and
written as `file '<dir>/<name>'` lines; `ffmpeg` is invoked
unconditionally with `check=True`.  On exit 0 the merged file
`final_recording.mp4` is created and the deletion loop removes every
name of a fresh sorted listing that matches the segment pattern.  On a
non-zero exit `CalledProcessError` is caught and printed; nothing is
deleted (the manifest file also remains in both branches — no code path
removes it). -/
def mergeSegments (dir : String) (fs : List String) (ff : FfmpegRun) : MergeTrace :=
  let fs1 := addFile "file_list.txt" fs
  let listed := (pySorted fs1).filter matchesSegment
  let manifest := listed.map (fun f => manifestLine (pathJoin dir f))
  let merged := pathJoin dir "final_recording.mp4"
  if ff.exitCode = 0 then
    let fs2 := addFile "final_recording.mp4" fs1
    { listed, manifest, invoked := true,
      deleted := (pySorted fs2).filter matchesSegment,
      fsAfter := fs2.filter (fun f => !matchesSegment f),
      outcome := .saved merged,
      events := [.mergeLog, .ffmpegRun ff.diag, .mergeSaved merged] }
  else
    { listed, manifest, invoked := true,
      deleted := [],
      fsAfter := fs1,
      outcome := .toolFailed ff.exitCode,
      events := [.mergeLog, .ffmpegRun ff.diag, .mergeFailed ff.exitCode] }

/-! ### `StreamRecorder` lifecycle -/

/-- The mutable state of a `StreamRecorder` relevant to the lifecycle:
the `recording` flag, the number of spawned worker threads that have not
yet terminated, and the output-directory listing. -/
structure Session where
  recording : Bool
  workers : Nat
  fs : List String
deriving DecidableEq

/-- `StreamRecorder.start()`: when `recording` is false, print the waiting
line, set the flag and spawn the worker thread; otherwise do nothing at all
(the method body is a single `if` with no `else`, so a duplicate call prints
no warning). -/
def startCall (s : Session) : Session × List Ev :=
  if s.recording then (s, [])
  else ({ s with recording := true, workers := s.workers + 1 }, [.waitingLog])

/-- One complete run of the worker thread body `StreamRecorder._record`.
If the probe fails, the method returns at once — it does not touch the
`recording` flag.  Otherwise the `gst-launch-1.0` pipeline is spawned with
`Popen`, its stderr is drained, and `process.wait()` returns `captureExit`.
Neither `Popen` nor `wait` raises `subprocess.CalledProcessError` (only
`subprocess.run(check=True)` does), so the `except` handler that would
print a GStreamer error and clear `self.recording` is unreachable: the
flag is left untouched whatever the exit status, and no relaunch occurs. -/
def recordRun (oracle : Nat → ProbeAttempt) (retryInterval maxRetries : Nat)
    (ts : String) (captureExit : Nat) (s : Session) : Session × List Ev :=
  let p := isRtspAvailable oracle retryInterval maxRetries
  if p.1 then
    ({ s with fs := addFile ("recording_" ++ ts ++ ".mkv") s.fs,
              workers := s.workers - 1 },
      p.2 ++ [.captureLaunch, .captureExited captureExit])
  else
    ({ s with workers := s.workers - 1 }, p.2)

/-- `StreamRecorder.stop()`: when `recording` is true, print the stopping
line, clear the flag, join the worker thread, and call `merge_segments`;
otherwise do nothing at all (again a single `if` with no `else` — there is
no nothing-to-stop warning in the source). -/
def stopCall (dir : String) (ff : FfmpegRun) (s : Session) : Session × List Ev :=
  if s.recording then
    let t := mergeSegments dir s.fs ff
    ({ recording := false, workers := 0, fs := t.fsAfter },
      .stoppingLog :: t.events)
  else (s, [])

/-- The Python-order `a <= b` on strings, as a proposition. -/
def strLeP (a b : String) : Prop := strLe a b = true

/-- Selects the events that are a `gst-discoverer-1.0` invocation or a
`time.sleep` of the probe loop. -/
def isRunOrSleep : Ev → Bool
  | .discovererRun => true
  | .probeSleep _ => true
  | _ => false

/-! ## Lemmas about the Python string order -/

theorem lexLt_trans : ∀ (x y z : List Char),
    lexLt x y = true → lexLt y z = true → lexLt x z = true
  | [], [], _, h₁, _ => by simp [lexLt] at h₁
  | [], _ :: _, [], _, h₂ => by simp [lexLt] at h₂
  | [], _ :: _, _ :: _, _, _ => by simp [lexLt]
  | _ :: _, [], _, h₁, _ => by simp [lexLt] at h₁
  | _ :: _, _ :: _, [], _, h₂ => by simp [lexLt] at h₂
  | a :: as, b :: bs, c :: cs, h₁, h₂ => by
    simp only [lexLt] at h₁ h₂ ⊢
    by_cases hab : a = b
    · subst hab
      rw [if_pos rfl] at h₁
      by_cases hac : a = c
      · subst hac
        rw [if_pos rfl] at h₂ ⊢
        exact lexLt_trans as bs cs h₁ h₂
      · rw [if_neg hac] at h₂ ⊢
        exact h₂
    · rw [if_neg hab, decide_eq_true_eq] at h₁
      by_cases hbc : b = c
      · subst hbc
        rw [if_neg hab, decide_eq_true_eq]
        exact h₁
      · rw [if_neg hbc, decide_eq_true_eq] at h₂
        have hac : a < c := lt_trans h₁ h₂
        rw [if_neg hac.ne, decide_eq_true_eq]
        exact hac

theorem lexLt_asymm : ∀ (x y : List Char), lexLt x y = true → lexLt y x = false
  | [], [], h => by simp [lexLt] at h
  | [], _ :: _, _ => rfl
  | _ :: _, [], h => by simp [lexLt] at h
  | a :: as, b :: bs, h => by
    simp only [lexLt] at h ⊢
    by_cases hab : a = b
    · subst hab
      rw [if_pos rfl] at h
      rw [if_pos rfl]
      exact lexLt_asymm as bs h
    · rw [if_neg hab, decide_eq_true_eq] at h
      rw [if_neg (Ne.symm hab), decide_eq_false_iff_not]
      exact asymm h

theorem lexLt_connex : ∀ (x y : List Char),
    x = y ∨ lexLt x y = true ∨ lexLt y x = true
  | [], [] => Or.inl rfl
  | [], _ :: _ => Or.inr (Or.inl rfl)
  | _ :: _, [] => Or.inr (Or.inr rfl)
  | a :: as, b :: bs => by
    by_cases hab : a = b
    · subst hab
      rcases lexLt_connex as bs with h | h | h
      · exact Or.inl (by rw [h])
      · exact Or.inr (Or.inl (by simp [lexLt, h]))
      · exact Or.inr (Or.inr (by simp [lexLt, h]))
    · rcases lt_or_gt_of_ne hab with h | h
      · exact Or.inr (Or.inl (by simp [lexLt, if_neg hab, h]))
      · exact Or.inr (Or.inr (by simp [lexLt, if_neg (Ne.symm hab), h]))

theorem strLe_total (a b : String) : strLe a b = true ∨ strLe b a = true := by
  unfold strLe
  by_cases h : lexLt b.data a.data = true
  · exact Or.inr (by simp [lexLt_asymm _ _ h])
  · exact Or.inl (by simp [Bool.not_eq_true] at h; simp [h])

theorem strLe_trans {a b c : String} (h₁ : strLe a b = true) (h₂ : strLe b c = true) :
    strLe a c = true := by
  unfold strLe at h₁ h₂ ⊢
  rw [Bool.not_eq_true'] at h₁ h₂
  rw [Bool.not_eq_true']
  rcases lexLt_connex a.data b.data with he | hab | hba
  · rw [← he] at h₂
    exact h₂
  · cases hca : lexLt c.data a.data
    · rfl
    · exact absurd (lexLt_trans _ _ _ hca hab) (by rw [h₂]; simp)
  · simp [hba] at h₁

/-! ## Lemmas about `pySorted` -/

theorem insertSorted_perm (a : String) : ∀ l : List String,
    List.Perm (insertSorted a l) (a :: l)
  | [] => List.Perm.refl _
  | b :: t => by
    rw [insertSorted]
    by_cases h : strLe a b = true
    · rw [if_pos h]
    · rw [if_neg h]
      exact ((insertSorted_perm a t).cons b).trans (List.Perm.swap a b t)

theorem pySorted_perm : ∀ l : List String, List.Perm (pySorted l) l
  | [] => List.Perm.refl _
  | a :: t => by
    rw [pySorted]
    exact (insertSorted_perm a (pySorted t)).trans ((pySorted_perm t).cons a)

theorem mem_insertSorted {x a : String} {l : List String} :
    x ∈ insertSorted a l ↔ x = a ∨ x ∈ l := by
  rw [(insertSorted_perm a l).mem_iff, List.mem_cons]

theorem pairwise_insertSorted {a : String} : ∀ {l : List String},
    l.Pairwise strLeP → (insertSorted a l).Pairwise strLeP := by
  intro l
  induction l with
  | nil => intro _; simp [insertSorted, strLeP]
  | cons b t ih =>
    intro h
    rcases List.pairwise_cons.mp h with ⟨hb, ht⟩
    rw [insertSorted]
    by_cases hab : strLe a b = true
    · rw [if_pos hab]
      refine List.pairwise_cons.mpr ⟨?_, h⟩
      intro x hx
      rcases List.mem_cons.mp hx with rfl | hx
      · exact hab
      · exact strLe_trans hab (hb x hx)
    · rw [if_neg hab]
      refine List.pairwise_cons.mpr ⟨?_, ih ht⟩
      intro x hx
      rcases mem_insertSorted.mp hx with he | hx
      · rw [he]; exact (strLe_total a b).resolve_left hab
      · exact hb x hx

theorem pairwise_pySorted : ∀ l : List String, (pySorted l).Pairwise strLeP
  | [] => List.Pairwise.nil
  | a :: t => by
    rw [pySorted]
    exact pairwise_insertSorted (pairwise_pySorted t)

theorem filter_insertSorted_neg {p : String → Bool} {a : String} (hp : p a = false) :
    ∀ l : List String, (insertSorted a l).filter p = l.filter p
  | [] => by simp [insertSorted, hp]
  | b :: t => by
    rw [insertSorted]
    by_cases h : strLe a b = true
    · rw [if_pos h]
      simp [List.filter_cons, hp]
    · rw [if_neg h]
      simp only [List.filter_cons, filter_insertSorted_neg hp t]

/-! ## Lemmas about `addFile` and the segment pattern -/

theorem mem_addFile {f g : String} {l : List String} (h : f ∈ addFile g l) :
    f = g ∨ f ∈ l := by
  unfold addFile at h
  split at h
  · exact Or.inr h
  · exact List.mem_cons.mp h

theorem mem_addFile_of_mem {f g : String} {l : List String} (h : f ∈ l) :
    f ∈ addFile g l := by
  unfold addFile
  split
  · exact h
  · exact List.mem_cons_of_mem g h

theorem mem_addFile_self (g : String) (l : List String) : g ∈ addFile g l := by
  unfold addFile
  split
  · next h => exact List.elem_iff.mp h
  · exact List.mem_cons_self g l

theorem filter_addFile {p : String → Bool} {g : String} (hp : p g = false)
    (l : List String) : (addFile g l).filter p = l.filter p := by
  unfold addFile
  split
  · rfl
  · simp [List.filter_cons, hp]

theorem filter_pySorted_addFile {p : String → Bool} {g : String} (hp : p g = false)
    (l : List String) : (pySorted (addFile g l)).filter p = (pySorted l).filter p := by
  unfold addFile
  split
  · rfl
  · rw [pySorted, filter_insertSorted_neg hp]

theorem matchesSegment_fileList : matchesSegment "file_list.txt" = false := by decide

theorem matchesSegment_final : matchesSegment "final_recording.mp4" = false := by decide

theorem startsWithStr_seg_recording (ts : String) :
    startsWithStr "segment_" ("recording_" ++ ts ++ ".mkv") = false := by
  unfold startsWithStr
  rw [String.data_append, String.data_append]
  have h : "recording_".data = 'r' :: "ecording_".data := rfl
  rw [h, List.cons_append, List.cons_append]
  rfl

theorem matchesSegment_recording (ts : String) :
    matchesSegment ("recording_" ++ ts ++ ".mkv") = false := by
  rw [matchesSegment, startsWithStr_seg_recording, Bool.false_and]

/-! ## Lemmas about `mergeSegments` -/

theorem mergeSegments_listed (dir : String) (fs : List String) (ff : FfmpegRun) :
    (mergeSegments dir fs ff).listed
      = (pySorted (addFile "file_list.txt" fs)).filter matchesSegment := by
  simp only [mergeSegments]
  split <;> rfl

theorem mergeSegments_manifest (dir : String) (fs : List String) (ff : FfmpegRun) :
    (mergeSegments dir fs ff).manifest
      = (mergeSegments dir fs ff).listed.map (fun f => manifestLine (pathJoin dir f)) := by
  simp only [mergeSegments]
  split <;> rfl

theorem mergeSegments_invoked (dir : String) (fs : List String) (ff : FfmpegRun) :
    (mergeSegments dir fs ff).invoked = true := by
  simp only [mergeSegments]
  split <;> rfl

theorem mergeLog_mem_mergeSegments (dir : String) (fs : List String) (ff : FfmpegRun) :
    Ev.mergeLog ∈ (mergeSegments dir fs ff).events := by
  simp only [mergeSegments]
  split <;> exact List.mem_cons_self _ _

theorem mergeSegments_listed_perm (dir : String) (fs : List String) (ff : FfmpegRun) :
    List.Perm (mergeSegments dir fs ff).listed (fs.filter matchesSegment) := by
  rw [mergeSegments_listed,
    ← filter_addFile (p := matchesSegment) matchesSegment_fileList fs]
  exact (pySorted_perm _).filter _

theorem mergeSegments_listed_sorted (dir : String) (fs : List String) (ff : FfmpegRun) :
    (mergeSegments dir fs ff).listed.Pairwise strLeP := by
  rw [mergeSegments_listed]
  exact (pairwise_pySorted _).filter _

theorem mergeSegments_success_fields (dir : String) (fs : List String)
    (ff : FfmpegRun) (h : ff.exitCode = 0) :
    (mergeSegments dir fs ff).deleted = (mergeSegments dir fs ff).listed ∧
    (mergeSegments dir fs ff).fsAfter
      = (addFile "final_recording.mp4" (addFile "file_list.txt" fs)).filter
          (fun f => !matchesSegment f) ∧
    (mergeSegments dir fs ff).outcome
      = .saved (pathJoin dir "final_recording.mp4") := by
  simp only [mergeSegments, if_pos h]
  refine ⟨?_, trivial, trivial⟩
  exact filter_pySorted_addFile matchesSegment_final _

theorem mergeSegments_failure_fields (dir : String) (fs : List String)
    (ff : FfmpegRun) (h : ¬ff.exitCode = 0) :
    (mergeSegments dir fs ff).deleted = [] ∧
    (mergeSegments dir fs ff).fsAfter = addFile "file_list.txt" fs ∧
    (mergeSegments dir fs ff).outcome = .toolFailed ff.exitCode ∧
    (mergeSegments dir fs ff).events
      = [.mergeLog, .ffmpegRun ff.diag, .mergeFailed ff.exitCode] := by
  simp only [mergeSegments, if_neg h]
  exact ⟨trivial, trivial, trivial, trivial⟩

/-! ## Lemmas about the probe loop -/

theorem isRunOrSleep_attemptFailEv (x : ProbeAttempt) :
    isRunOrSleep (attemptFailEv x) = false := by
  cases x <;> rfl

theorem attemptFailEv_ne_capture (x : ProbeAttempt) :
    attemptFailEv x ≠ Ev.captureLaunch := by
  cases x <;> simp [attemptFailEv]

theorem probeLoop_fail_false (oracle : Nat → ProbeAttempt) (ri total : Nat)
    (hf : ∀ i, attemptSucceeds (oracle i) = false) :
    ∀ (r a : Nat), (probeLoop oracle ri total a r).1 = false
  | 0, _ => rfl
  | r + 1, a => by
    simp [probeLoop, hf a, probeLoop_fail_false oracle ri total hf r (a + 1)]

theorem probeLoop_fail_filter (oracle : Nat → ProbeAttempt) (ri total : Nat)
    (hf : ∀ i, attemptSucceeds (oracle i) = false) :
    ∀ (r a : Nat), (probeLoop oracle ri total a r).2.filter isRunOrSleep
      = (List.replicate r [Ev.discovererRun, Ev.probeSleep ri]).flatten
  | 0, _ => rfl
  | r + 1, a => by
    simp [probeLoop, hf a, List.filter_cons, isRunOrSleep, List.replicate_succ,
      probeLoop_fail_filter oracle ri total hf r (a + 1)]
    cases oracle a <;> rfl

theorem probeLoop_no_captureLaunch (oracle : Nat → ProbeAttempt) (ri total : Nat) :
    ∀ (r a : Nat), Ev.captureLaunch ∉ (probeLoop oracle ri total a r).2
  | 0, _ => by simp [probeLoop]
  | r + 1, a => by
    by_cases hs : attemptSucceeds (oracle a) = true
    · simp [probeLoop, hs]
    · simp only [Bool.not_eq_true] at hs
      simp only [probeLoop, hs, Bool.false_eq_true, if_false, List.mem_cons]
      intro hmem
      rcases hmem with h | h | h | h | h
      · exact Ev.noConfusion h
      · exact Ev.noConfusion h
      · exact (attemptFailEv_ne_capture (oracle a)) h.symm
      · exact Ev.noConfusion h
      · exact probeLoop_no_captureLaunch oracle ri total r (a + 1) h

theorem mem_listed_matches {dir : String} {fs : List String} {ff : FfmpegRun}
    {f : String} (h : f ∈ (mergeSegments dir fs ff).listed) :
    matchesSegment f = true := by
  rw [mergeSegments_listed] at h
  exact (List.mem_filter.mp h).2

/-! ## Claim theorems -/

/-- C7: for every `maxRetries = N` (in particular every `N ≥ 1`), a probe
whose gst-discoverer attempts all fail — non-zero exit, missing video
indicator, timeout, or a raised exception, every one of which
`attemptSucceeds` classifies as failure and the loop's `except` clauses
swallow rather than abort on — performs exactly `N` tool invocations with a
`retryInterval`-second sleep after each one (so at least `retryInterval`
separates consecutive attempts), and then returns `false`. -/
theorem probe_exhausts_all_retries (oracle : Nat → ProbeAttempt) (ri N : Nat)
    (hN : 1 ≤ N) (hf : ∀ i, attemptSucceeds (oracle i) = false) :
    (isRtspAvailable oracle ri N).1 = false ∧
    (isRtspAvailable oracle ri N).2.filter isRunOrSleep
      = (List.replicate N [Ev.discovererRun, Ev.probeSleep ri]).flatten :=
  ⟨probeLoop_fail_false oracle ri N hf N 1, probeLoop_fail_filter oracle ri N hf N 1⟩

/-- Witness for C7 at `N = 3`, `retryInterval = 2` and an oracle whose tool
invocation always exits 1. -/
theorem probe_exhausts_all_retries_witness :
    (isRtspAvailable (fun _ => ProbeAttempt.completed 1 "" "") 2 3).1 = false ∧
    (isRtspAvailable (fun _ => ProbeAttempt.completed 1 "" "") 2 3).2.filter isRunOrSleep
      = (List.replicate 3 [Ev.discovererRun, Ev.probeSleep 2]).flatten :=
  probe_exhausts_all_retries (fun _ => ProbeAttempt.completed 1 "" "") 2 3
    (by decide) (fun _ => rfl)

/-- C8: with username `u` and password `p` both supplied,
`_build_auth_url` turns `rtsp://host/path` into `rtsp://u:p@host/path`;
with no credentials the URL is returned unchanged. -/
theorem auth_url_construction :
    buildAuthUrl "rtsp://host/path" (some "u") (some "p") = "rtsp://u:p@host/path" ∧
    ∀ url, buildAuthUrl url none none = url := by
  refine ⟨by decide, fun url => rfl⟩

/-- C9: if the username or the password is `None` or the empty string,
`_build_auth_url` returns the input URL unchanged (Python truthiness of the
`if username and password` guard). -/
theorem auth_url_requires_both (url : String) (u p : Option String)
    (h : u = none ∨ u = some "" ∨ p = none ∨ p = some "") :
    buildAuthUrl url u p = url := by
  unfold buildAuthUrl
  rcases h with h | h | h | h <;> subst h
  · rfl
  · rfl
  · have hp : truthy none = false := rfl
    simp [hp]
  · have hp : truthy (some "") = false := rfl
    simp [hp]

/-- Witness for C9: supplying only a username leaves the URL unchanged. -/
theorem auth_url_requires_both_witness :
    buildAuthUrl "rtsp://host/path" (some "u") none = "rtsp://host/path" :=
  auth_url_requires_both "rtsp://host/path" (some "u") none
    (Or.inr (Or.inr (Or.inl rfl)))

/-- C2 counterexample: with zero matching segment files in the directory the
code still writes an (empty) manifest and invokes the `ffmpeg` concatenation
tool, and the outcome goes through the ordinary tool-failure report — there
is no `MergeEmptyInput` condition (the `MergeOutcome` type of the code has no
such case), refuting the claim that the tool is not invoked at all. -/
theorem merge_empty_input_cex :
    (mergeSegments "d" [] ⟨1, "e"⟩).invoked = true ∧
    (mergeSegments "d" [] ⟨1, "e"⟩).outcome = MergeOutcome.toolFailed 1 := by
  decide

/-- C2 amended: with zero matching segment files the merge writes an empty
manifest, still invokes the concatenation tool unconditionally, deletes
nothing, and leaves every existing file in place; any failure is reported
through the same generic tool-failure path as an ordinary run. -/
theorem merge_empty_input_amended (dir : String) (fs : List String)
    (ff : FfmpegRun) (h : fs.filter matchesSegment = []) :
    (mergeSegments dir fs ff).listed = [] ∧
    (mergeSegments dir fs ff).manifest = [] ∧
    (mergeSegments dir fs ff).invoked = true ∧
    (mergeSegments dir fs ff).deleted = [] ∧
    ∀ f ∈ fs, f ∈ (mergeSegments dir fs ff).fsAfter := by
  have hl : (mergeSegments dir fs ff).listed = [] := by
    have hp := mergeSegments_listed_perm dir fs ff
    rw [h] at hp
    exact hp.eq_nil
  have hm : ∀ f ∈ fs, matchesSegment f = false := by
    intro f hf
    have := List.filter_eq_nil_iff.mp h f hf
    exact Bool.not_eq_true _ ▸ (by simpa using this)
  refine ⟨hl, ?_, mergeSegments_invoked dir fs ff, ?_, ?_⟩
  · rw [mergeSegments_manifest, hl]
    rfl
  · by_cases h0 : ff.exitCode = 0
    · rw [(mergeSegments_success_fields dir fs ff h0).1, hl]
    · exact (mergeSegments_failure_fields dir fs ff h0).1
  · intro f hf
    by_cases h0 : ff.exitCode = 0
    · obtain ⟨_, hfs, _⟩ := mergeSegments_success_fields dir fs ff h0
      rw [hfs]
      refine List.mem_filter.mpr ⟨mem_addFile_of_mem (mem_addFile_of_mem hf), ?_⟩
      rw [hm f hf]
      rfl
    · obtain ⟨_, hfs, _, _⟩ := mergeSegments_failure_fields dir fs ff h0
      rw [hfs]
      exact mem_addFile_of_mem hf

/-- Witness for C2's amended claim on a directory holding one non-segment
file, with a failing tool run. -/
theorem merge_empty_input_amended_witness :
    (mergeSegments "d" ["notes.txt"] ⟨1, "e2"⟩).listed = [] ∧
    (mergeSegments "d" ["notes.txt"] ⟨1, "e2"⟩).manifest = [] ∧
    (mergeSegments "d" ["notes.txt"] ⟨1, "e2"⟩).invoked = true ∧
    (mergeSegments "d" ["notes.txt"] ⟨1, "e2"⟩).deleted = [] ∧
    ∀ f ∈ ["notes.txt"], f ∈ (mergeSegments "d" ["notes.txt"] ⟨1, "e2"⟩).fsAfter :=
  merge_empty_input_amended "d" ["notes.txt"] ⟨1, "e2"⟩ (by decide)

/-- C5: when the concatenation tool exits non-zero, no file is deleted —
every file of the directory, in particular every segment enumerated into the
manifest, remains, and the manifest file `file_list.txt` remains — and the
failure is reported via the `CalledProcessError` path carrying the tool's
exit status, the tool's diagnostic output having streamed to the console
(the `ffmpegRun` event's payload). -/
theorem merge_failure_preserves_segments (dir : String) (fs : List String)
    (ff : FfmpegRun) (h : ff.exitCode ≠ 0) :
    (mergeSegments dir fs ff).deleted = [] ∧
    (∀ f ∈ fs, f ∈ (mergeSegments dir fs ff).fsAfter) ∧
    (∀ f ∈ (mergeSegments dir fs ff).listed, f ∈ (mergeSegments dir fs ff).fsAfter) ∧
    "file_list.txt" ∈ (mergeSegments dir fs ff).fsAfter ∧
    (mergeSegments dir fs ff).outcome = MergeOutcome.toolFailed ff.exitCode ∧
    Ev.ffmpegRun ff.diag ∈ (mergeSegments dir fs ff).events ∧
    Ev.mergeFailed ff.exitCode ∈ (mergeSegments dir fs ff).events := by
  obtain ⟨hd, hfs, ho, he⟩ := mergeSegments_failure_fields dir fs ff h
  refine ⟨hd, ?_, ?_, ?_, ho, ?_, ?_⟩
  · intro f hf
    rw [hfs]
    exact mem_addFile_of_mem hf
  · intro f hf
    rw [mergeSegments_listed] at hf
    rw [hfs]
    exact (pySorted_perm _).mem_iff.mp (List.mem_of_mem_filter hf)
  · rw [hfs]
    exact mem_addFile_self _ _
  · rw [he]
    simp
  · rw [he]
    simp

/-- Witness for C5 on a directory with one segment file and a tool run that
exits 1. -/
theorem merge_failure_preserves_segments_witness :
    (mergeSegments "d" ["segment_001.mp4"] ⟨1, "boom"⟩).deleted = [] ∧
    (∀ f ∈ ["segment_001.mp4"],
      f ∈ (mergeSegments "d" ["segment_001.mp4"] ⟨1, "boom"⟩).fsAfter) ∧
    (∀ f ∈ (mergeSegments "d" ["segment_001.mp4"] ⟨1, "boom"⟩).listed,
      f ∈ (mergeSegments "d" ["segment_001.mp4"] ⟨1, "boom"⟩).fsAfter) ∧
    "file_list.txt" ∈ (mergeSegments "d" ["segment_001.mp4"] ⟨1, "boom"⟩).fsAfter ∧
    (mergeSegments "d" ["segment_001.mp4"] ⟨1, "boom"⟩).outcome
      = MergeOutcome.toolFailed 1 ∧
    Ev.ffmpegRun "boom" ∈ (mergeSegments "d" ["segment_001.mp4"] ⟨1, "boom"⟩).events ∧
    Ev.mergeFailed 1 ∈ (mergeSegments "d" ["segment_001.mp4"] ⟨1, "boom"⟩).events :=
  merge_failure_preserves_segments "d" ["segment_001.mp4"] ⟨1, "boom"⟩ (by decide)

/-- C6: the manifest holds one `file '<dir>/<name>'` line per matching
segment file, over the segment files sorted ascending in the Python string
order (`listed` is pairwise `strLeP`-sorted and a permutation of the
matching files); on tool success the deletion loop removes exactly the
enumerated set (`deleted = listed`), every non-segment file survives, the
merged file is present, and the outcome carries the deterministic merged
path `<dir>/final_recording.mp4`. -/
theorem merge_success_spec (dir : String) (fs : List String) (ff : FfmpegRun)
    (h0 : ff.exitCode = 0) :
    (mergeSegments dir fs ff).listed.Pairwise strLeP ∧
    List.Perm (mergeSegments dir fs ff).listed (fs.filter matchesSegment) ∧
    (mergeSegments dir fs ff).manifest
      = (mergeSegments dir fs ff).listed.map (fun f => manifestLine (pathJoin dir f)) ∧
    (mergeSegments dir fs ff).deleted = (mergeSegments dir fs ff).listed ∧
    (∀ f ∈ fs, matchesSegment f = false → f ∈ (mergeSegments dir fs ff).fsAfter) ∧
    (∀ f ∈ (mergeSegments dir fs ff).fsAfter, matchesSegment f = false) ∧
    "final_recording.mp4" ∈ (mergeSegments dir fs ff).fsAfter ∧
    (mergeSegments dir fs ff).outcome
      = MergeOutcome.saved (pathJoin dir "final_recording.mp4") := by
  obtain ⟨hd, hfs, ho⟩ := mergeSegments_success_fields dir fs ff h0
  refine ⟨mergeSegments_listed_sorted dir fs ff, mergeSegments_listed_perm dir fs ff,
    mergeSegments_manifest dir fs ff, hd, ?_, ?_, ?_, ho⟩
  · intro f hf hm
    rw [hfs]
    refine List.mem_filter.mpr ⟨mem_addFile_of_mem (mem_addFile_of_mem hf), ?_⟩
    rw [hm]
    rfl
  · intro f hf
    rw [hfs] at hf
    simpa using (List.mem_filter.mp hf).2
  · rw [hfs]
    refine List.mem_filter.mpr ⟨mem_addFile_self _ _, ?_⟩
    rw [matchesSegment_final]
    rfl

/-- Witness for C6 with three segment files (given unsorted) plus a
bystander file and a successful tool run. -/
theorem merge_success_spec_witness :
    (mergeSegments "d" ["segment_002.mp4", "other.bin", "segment_001.mp4"]
      ⟨0, "ok"⟩).listed.Pairwise strLeP ∧
    List.Perm (mergeSegments "d" ["segment_002.mp4", "other.bin", "segment_001.mp4"]
      ⟨0, "ok"⟩).listed
      (["segment_002.mp4", "other.bin", "segment_001.mp4"].filter matchesSegment) ∧
    (mergeSegments "d" ["segment_002.mp4", "other.bin", "segment_001.mp4"]
      ⟨0, "ok"⟩).manifest
      = (mergeSegments "d" ["segment_002.mp4", "other.bin", "segment_001.mp4"]
          ⟨0, "ok"⟩).listed.map (fun f => manifestLine (pathJoin "d" f)) ∧
    (mergeSegments "d" ["segment_002.mp4", "other.bin", "segment_001.mp4"]
      ⟨0, "ok"⟩).deleted
      = (mergeSegments "d" ["segment_002.mp4", "other.bin", "segment_001.mp4"]
          ⟨0, "ok"⟩).listed ∧
    (∀ f ∈ ["segment_002.mp4", "other.bin", "segment_001.mp4"],
      matchesSegment f = false →
        f ∈ (mergeSegments "d" ["segment_002.mp4", "other.bin", "segment_001.mp4"]
          ⟨0, "ok"⟩).fsAfter) ∧
    (∀ f ∈ (mergeSegments "d" ["segment_002.mp4", "other.bin", "segment_001.mp4"]
        ⟨0, "ok"⟩).fsAfter, matchesSegment f = false) ∧
    "final_recording.mp4"
      ∈ (mergeSegments "d" ["segment_002.mp4", "other.bin", "segment_001.mp4"]
          ⟨0, "ok"⟩).fsAfter ∧
    (mergeSegments "d" ["segment_002.mp4", "other.bin", "segment_001.mp4"]
      ⟨0, "ok"⟩).outcome = MergeOutcome.saved (pathJoin "d" "final_recording.mp4") :=
  merge_success_spec "d" ["segment_002.mp4", "other.bin", "segment_001.mp4"]
    ⟨0, "ok"⟩ (by decide)

/-- C10: a merge only ever creates `file_list.txt` and `final_recording.mp4`
and only ever deletes files matching the segment pattern; the capture
pipeline's own output `recording_<timestamp>.mkv` never matches the
pattern, is never enumerated into the manifest and is never deleted. -/
theorem merge_touches_only_known_names (dir : String) (fs : List String)
    (ff : FfmpegRun) :
    (∀ f, f ∈ (mergeSegments dir fs ff).fsAfter → f ∉ fs →
      f = "file_list.txt" ∨ f = "final_recording.mp4") ∧
    (∀ f, f ∈ fs → f ∉ (mergeSegments dir fs ff).fsAfter →
      matchesSegment f = true) ∧
    (∀ ts, matchesSegment ("recording_" ++ ts ++ ".mkv") = false) ∧
    (∀ ts, ("recording_" ++ ts ++ ".mkv") ∉ (mergeSegments dir fs ff).listed) ∧
    (∀ ts, ("recording_" ++ ts ++ ".mkv") ∉ (mergeSegments dir fs ff).deleted) := by
  have hnotrec : ∀ ts, ("recording_" ++ ts ++ ".mkv")
      ∉ (mergeSegments dir fs ff).listed := by
    intro ts hmem
    have := mem_listed_matches hmem
    rw [matchesSegment_recording] at this
    exact Bool.false_ne_true this
  refine ⟨?_, ?_, matchesSegment_recording, hnotrec, ?_⟩
  · intro f hmem hnot
    by_cases h0 : ff.exitCode = 0
    · obtain ⟨_, hfs, _⟩ := mergeSegments_success_fields dir fs ff h0
      rw [hfs] at hmem
      rcases mem_addFile (List.mem_of_mem_filter hmem) with he | h2
      · exact Or.inr he
      · rcases mem_addFile h2 with he | h3
        · exact Or.inl he
        · exact absurd h3 hnot
    · obtain ⟨_, hfs, _, _⟩ := mergeSegments_failure_fields dir fs ff h0
      rw [hfs] at hmem
      rcases mem_addFile hmem with he | h2
      · exact Or.inl he
      · exact absurd h2 hnot
  · intro f hf hnot
    by_cases h0 : ff.exitCode = 0
    · obtain ⟨_, hfs, _⟩ := mergeSegments_success_fields dir fs ff h0
      rw [hfs] at hnot
      cases hm : matchesSegment f
      · exact absurd (List.mem_filter.mpr
          ⟨mem_addFile_of_mem (mem_addFile_of_mem hf), by rw [hm]; rfl⟩) hnot
      · rfl
    · obtain ⟨_, hfs, _, _⟩ := mergeSegments_failure_fields dir fs ff h0
      rw [hfs] at hnot
      exact absurd (mem_addFile_of_mem hf) hnot
  · intro ts hmem
    by_cases h0 : ff.exitCode = 0
    · rw [(mergeSegments_success_fields dir fs ff h0).1] at hmem
      exact hnotrec ts hmem
    · rw [(mergeSegments_failure_fields dir fs ff h0).1] at hmem
      exact List.not_mem_nil _ hmem

/-- C1 counterexample: start a session from the idle state with a probe
whose tool invocation always exits 1 (two retries), let the worker run to
completion, then call `stop()`.  The capture pipeline is indeed never
launched, but — refuting the claim — the `recording` flag is still set after
the failed probe (the session has not returned to the idle state), so the
subsequent `stop()` takes the active-stop branch and invokes the segment
merge (and prints the stopping line, not a nothing-to-stop warning). -/
theorem probe_fail_stop_cex :
    ((recordRun (fun _ => ProbeAttempt.completed 1 "" "") 1 2 "T" 0
        (startCall ⟨false, 0, []⟩).1).1.recording = true ∧
      Ev.mergeLog ∈ (stopCall "d" ⟨1, "x"⟩
        (recordRun (fun _ => ProbeAttempt.completed 1 "" "") 1 2 "T" 0
          (startCall ⟨false, 0, []⟩).1).1).2) := by
  decide

/-- C1 amended: for a session started from the idle state whose probe
exhausts all retries, the capture pipeline is never launched and no output
file is created, but the `recording` flag remains set (the worker's early
return leaves it untouched), so a subsequent `stop()` does not take a
nothing-to-stop path (none exists in the code): it proceeds down the
active-stop branch, prints the stopping line and invokes the segment merge,
and only then is the flag cleared. -/
theorem probe_fail_stop_amended (oracle : Nat → ProbeAttempt) (ri N : Nat)
    (ts : String) (ce : Nat) (dir : String) (ff : FfmpegRun) (s0 : Session)
    (hf : ∀ i, attemptSucceeds (oracle i) = false)
    (h0 : s0.recording = false) :
    Ev.captureLaunch ∉ (recordRun oracle ri N ts ce (startCall s0).1).2 ∧
    (recordRun oracle ri N ts ce (startCall s0).1).1.recording = true ∧
    (recordRun oracle ri N ts ce (startCall s0).1).1.fs = s0.fs ∧
    Ev.stoppingLog ∈ (stopCall dir ff
      (recordRun oracle ri N ts ce (startCall s0).1).1).2 ∧
    Ev.mergeLog ∈ (stopCall dir ff
      (recordRun oracle ri N ts ce (startCall s0).1).1).2 ∧
    (stopCall dir ff (recordRun oracle ri N ts ce (startCall s0).1).1).1.recording
      = false := by
  have hstart : (startCall s0).1
      = { s0 with recording := true, workers := s0.workers + 1 } := by
    rw [startCall, if_neg (by rw [h0]; exact Bool.false_ne_true)]
  have hprobe : (isRtspAvailable oracle ri N).1 = false :=
    probeLoop_fail_false oracle ri N hf N 1
  have hrec : recordRun oracle ri N ts ce (startCall s0).1
      = ({ (startCall s0).1 with workers := (startCall s0).1.workers - 1 },
          (isRtspAvailable oracle ri N).2) := by
    rw [recordRun, if_neg (by rw [hprobe]; exact Bool.false_ne_true)]
  rw [hrec]
  have hrecording : ({ (startCall s0).1 with
      workers := (startCall s0).1.workers - 1 } : Session).recording = true := by
    rw [hstart]
  constructor
  · exact probeLoop_no_captureLaunch oracle ri N N 1
  refine ⟨hrecording, by rw [hstart], ?_, ?_, ?_⟩
  · rw [stopCall, if_pos hrecording]
    exact List.mem_cons_self _ _
  · rw [stopCall, if_pos hrecording]
    exact List.mem_cons_of_mem _ (mergeLog_mem_mergeSegments _ _ _)
  · rw [stopCall, if_pos hrecording]

/-- Witness for C1's amended claim at a concrete always-failing oracle. -/
theorem probe_fail_stop_amended_witness :
    Ev.captureLaunch ∉ (recordRun (fun _ => ProbeAttempt.timedOut) 1 2 "T" 0
      (startCall ⟨false, 0, []⟩).1).2 ∧
    (recordRun (fun _ => ProbeAttempt.timedOut) 1 2 "T" 0
      (startCall ⟨false, 0, []⟩).1).1.recording = true ∧
    (recordRun (fun _ => ProbeAttempt.timedOut) 1 2 "T" 0
      (startCall ⟨false, 0, []⟩).1).1.fs = (⟨false, 0, []⟩ : Session).fs ∧
    Ev.stoppingLog ∈ (stopCall "d" ⟨0, "y"⟩
      (recordRun (fun _ => ProbeAttempt.timedOut) 1 2 "T" 0
        (startCall ⟨false, 0, []⟩).1).1).2 ∧
    Ev.mergeLog ∈ (stopCall "d" ⟨0, "y"⟩
      (recordRun (fun _ => ProbeAttempt.timedOut) 1 2 "T" 0
        (startCall ⟨false, 0, []⟩).1).1).2 ∧
    (stopCall "d" ⟨0, "y"⟩ (recordRun (fun _ => ProbeAttempt.timedOut) 1 2 "T" 0
      (startCall ⟨false, 0, []⟩).1).1).1.recording = false :=
  probe_fail_stop_amended (fun _ => ProbeAttempt.timedOut) 1 2 "T" 0 "d"
    ⟨0, "y"⟩ ⟨false, 0, []⟩ (fun _ => rfl) rfl

/-- C3 (code bug): with a probe that succeeds on the first attempt and a
capture process that exits with status 1, the worker's full event trace is
the probe events followed by the launch and the non-zero wait — no failure
is logged — and the `recording` flag is still set afterwards.  In CPython,
`Popen` and `Process.wait` never raise `subprocess.CalledProcessError`
(only `subprocess.run(check=True)` does), so the `except` handler of
`_record` that would print the GStreamer error and clear `self.recording`
is unreachable, contradicting the documented failure semantics. -/
theorem capture_failure_leaves_flag_set :
    ((recordRun (fun _ => ProbeAttempt.completed 0 "Video: H264" "") 1 3 "T" 1
        ⟨true, 1, []⟩).1.recording = true ∧
      (recordRun (fun _ => ProbeAttempt.completed 0 "Video: H264" "") 1 3 "T" 1
        ⟨true, 1, []⟩).2
        = [Ev.probeCheck 1 3, Ev.discovererRun, Ev.probeAvail,
           Ev.captureLaunch, Ev.captureExited 1]) := by
  decide

/-- C4 counterexample: a second `start()` without an intervening `stop()`
is a no-op that leaves exactly one worker, but — refuting the claim — it
emits no event at all: `start()` is a single `if` with no `else`, so no
duplicate-start warning is printed by the session. -/
theorem duplicate_start_cex :
    ((startCall (startCall ⟨false, 0, []⟩).1).2 = [] ∧
      (startCall (startCall ⟨false, 0, []⟩).1).1.workers = 1) := by
  decide

/-- C4 amended: a second `start()` without an intervening `stop()` is a
no-op that changes nothing and leaves exactly one active worker in place,
but it logs nothing — there is no duplicate-start warning at the session
level (the registry client, not the session, prints the duplicate warning). -/
theorem duplicate_start_amended (s0 : Session) (h0 : s0.recording = false)
    (hw : s0.workers = 0) :
    (startCall (startCall s0).1).1 = (startCall s0).1 ∧
    (startCall (startCall s0).1).2 = [] ∧
    (startCall (startCall s0).1).1.workers = 1 ∧
    (startCall (startCall s0).1).1.recording = true := by
  have hstart : (startCall s0).1
      = { s0 with recording := true, workers := s0.workers + 1 } := by
    rw [startCall, if_neg (by rw [h0]; exact Bool.false_ne_true)]
  have h2 : startCall (startCall s0).1 = ((startCall s0).1, []) := by
    rw [startCall, if_pos (by rw [hstart])]
  rw [h2]
  exact ⟨rfl, rfl, by rw [hstart, hw], by rw [hstart]⟩

/-- Witness for C4's amended claim from the freshly constructed session. -/
theorem duplicate_start_amended_witness :
    (startCall (startCall ⟨false, 0, []⟩).1).1 = (startCall ⟨false, 0, []⟩).1 ∧
    (startCall (startCall ⟨false, 0, []⟩).1).2 = [] ∧
    (startCall (startCall ⟨false, 0, []⟩).1).1.workers = 1 ∧
    (startCall (startCall ⟨false, 0, []⟩).1).1.recording = true :=
  duplicate_start_amended ⟨false, 0, []⟩ rfl rfl

end VMS
